/-
Verification of the querybuilder core (type classifier, field model, method
synthesizer) against its natural-language specification.

The Lean definitions below are shallow embeddings of the Go source:
  * namespace Repo    — repository/types.go (operators)
  * namespace Domain  — domain types (FieldType, Field, SupportedOperators)
  * namespace FieldGen — field/field.go (the type classifier)
  * namespace Gen     — generation/method_factory.go (the method synthesizer)
  * namespace Conv    — parser/converter.go (field.Info → domain.Field)
  * namespace Templ   — templates/querybuilder.go (generation run orchestration)
-/
import Mathlib

set_option maxHeartbeats 1000000
set_option maxRecDepth 100000

namespace Repo

/-- `repository.Operator` (repository/types.go). In Go this is a string type;
the twelve enum constants are the constructors here, and `value` recovers the
Go string value of each constant. `opIn`/`opNotIn` stand for `OperatorIn` /
`OperatorNotIn` (`in` is reserved in Lean). -/
inductive Operator where
  | equal
  | notEqual
  | lessThan
  | lessThanOrEqual
  | greaterThan
  | greaterThanOrEqual
  | like
  | notLike
  | isNull
  | isNotNull
  | opIn
  | opNotIn
deriving DecidableEq, Repr

/-- The Go string value of each `repository.Operator` constant. -/
def Operator.value : Operator → String
  | .equal => "="
  | .notEqual => "!="
  | .lessThan => "<"
  | .lessThanOrEqual => "<="
  | .greaterThan => ">"
  | .greaterThanOrEqual => ">="
  | .like => "LIKE"
  | .notLike => "NOT_LIKE"
  | .isNull => "IS_NULL"
  | .isNotNull => "IS_NOT_NULL"
  | .opIn => "IN"
  | .opNotIn => "NOT_IN"

end Repo

namespace Domain

/-- `domain.FieldType` (src/unnamed/part_002): the bounded semantic category of
a struct field. Constructor order mirrors the Go iota order. -/
inductive FieldType where
  | unknown
  | string
  | numeric
  | time
  | bool
  | pointer
  | slice
  | struct
  | map
deriving DecidableEq, Repr

/-- `domain.Field` (src/unnamed/part_002). -/
structure Field where
  name : String
  dbName : String
  type : FieldType
  typeName : String
  goType : String
deriving DecidableEq, Repr

/-- `Field.IsFilterable` (src/unnamed/part_002): true unless the field is a
slice, struct or map. -/
def Field.IsFilterable (f : Field) : Bool :=
  f.type != FieldType.slice && f.type != FieldType.struct && f.type != FieldType.map

/-- `Field.SupportedOperators` (src/unnamed/part_002): the ordered operator
list for the field's type. Every branch starts from the base list
`[equal, notEqual]`; the `default` branch (unknown, bool, slice, struct, map)
returns the base list itself. -/
def Field.SupportedOperators (f : Field) : List Repo.Operator :=
  let base : List Repo.Operator := [.equal, .notEqual]
  match f.type with
  | .string =>
      base ++ [.like, .notLike, .opIn, .opNotIn,
               .lessThan, .greaterThan, .lessThanOrEqual, .greaterThanOrEqual]
  | .numeric =>
      base ++ [.lessThan, .greaterThan, .lessThanOrEqual, .greaterThanOrEqual,
               .opIn, .opNotIn]
  | .time =>
      base ++ [.lessThan, .greaterThan, .lessThanOrEqual, .greaterThanOrEqual,
               .opIn, .opNotIn]
  | .pointer =>
      base ++ [.isNull, .isNotNull]
  | _ => base

/-- `domain.Struct` (src/unnamed/part_002). -/
structure Struct where
  name : String
  packageName : String
  fields : List Field
deriving DecidableEq, Repr

/-- `Struct.FilterableFields` (src/unnamed/part_002). -/
def Struct.FilterableFields (s : Struct) : List Field :=
  s.fields.filter (fun f => f.IsFilterable)

/-- `domain.Method` (src/unnamed/part_002): a generated method description. -/
structure Method where
  name : String
  receiver : String
  parameters : String
  returnType : String
  body : String
  documentation : String
deriving DecidableEq, Repr

end Domain

/-
Character-level models of the `strings` / `unicode` standard-library
functions the Go code calls. They operate on `String.data` so that every
definition in this file evaluates inside the kernel. ASCII behaviour
matches Go exactly; the Go versions additionally handle non-ASCII case
folding, which no tag, keyword or type name in this code base uses.
-/

/-- Is `pat` a prefix of `s` (element-wise)? -/
def listStartsWith : List Char → List Char → Bool
  | _, [] => true
  | [], _ :: _ => false
  | a :: as, b :: bs => a == b && listStartsWith as bs

/-- Go `strings.Split` with a single-character separator (the code only ever
splits on `";"` and `":"`): the list of substrings between separators,
including empty ones. -/
def goSplit (s : String) (sep : Char) : List String :=
  let rec go : List Char → List Char → List String
    | [], acc => [String.mk acc.reverse]
    | c :: cs, acc =>
        if c == sep then String.mk acc.reverse :: go cs []
        else go cs (c :: acc)
  go s.data []

/-- Go `strings.ToUpper`. -/
def goToUpper (s : String) : String :=
  String.mk (s.data.map Char.toUpper)

/-- Go `strings.ToLower`. -/
def goToLower (s : String) : String :=
  String.mk (s.data.map Char.toLower)

/-- Go `strings.TrimSpace`. -/
def goTrim (s : String) : String :=
  String.mk (((s.data.dropWhile Char.isWhitespace).reverse.dropWhile
    Char.isWhitespace).reverse)

/-- Go `strings.Join`. -/
def goJoin (sep : String) : List String → String
  | [] => ""
  | [x] => x
  | x :: xs => x ++ sep ++ goJoin sep xs

/-- Go `strings.Contains`. -/
def goContains (s sub : String) : Bool :=
  let rec go : List Char → Bool
    | [] => listStartsWith [] sub.data
    | c :: cs => listStartsWith (c :: cs) sub.data || go cs
  go s.data

/-- Go `strings.TrimPrefix`: remove a leading `pat` if present, else return
`s` unchanged. -/
def goTrimLead (s pat : String) : String :=
  if listStartsWith s.data pat.data then String.mk (s.data.drop pat.data.length)
  else s

/-- Go `strings.TrimSuffix`: remove a trailing `pat` if present, else return
`s` unchanged. -/
def goTrimTrail (s pat : String) : String :=
  if listStartsWith s.data.reverse pat.data.reverse then
    String.mk (s.data.take (s.data.length - pat.data.length))
  else s

namespace FieldGen

/-- `field.TimeTypePattern` (field/field.go): exact type-name pattern plus
whether the time type behaves like numeric for filtering. -/
structure TimeTypePattern where
  pattern : String
  isNumeric : Bool
deriving DecidableEq, Repr

/-- `field.DefaultTimeTypes` (field/field.go): the built-in time patterns. -/
def DefaultTimeTypes : List TimeTypePattern :=
  [⟨"time.Time", true⟩,
   ⟨"datatypes.Date", true⟩,
   ⟨"datatypes.Time", true⟩,
   ⟨"datatypes.DateTime", true⟩,
   ⟨"sql.NullTime", true⟩,
   ⟨"pq.NullTime", true⟩]

/-- `field.BaseInfo` (field/field.go): name, column name, type name and the
six type-classification flags. -/
structure BaseInfo where
  name : String
  dbName : String
  typeName : String
  isStruct : Bool := false
  isNumeric : Bool := false
  isTime : Bool := false
  isString : Bool := false
  isSlice : Bool := false
  isMap : Bool := false
deriving DecidableEq, Repr

/-- `field.Info` (field/field.go). The Go struct also carries
`typeArgs []*Info`; no code path in field.go ever assigns it (every `Info`
the file constructs leaves it nil), so it is omitted from the embedding. -/
structure Info extends BaseInfo where
  pointed : Option BaseInfo := none
  isPointer : Bool := false
  isGeneric : Bool := false
deriving DecidableEq, Repr

/-- The zero value `Info{}` returned by `Info.GetPointed` for non-pointers. -/
def Info.zero : Info :=
  { name := "", dbName := "", typeName := "" }

/-- `Info.GetPointed` (field/field.go): the pointed-to type for pointer
fields, as an `Info` holding only the recorded `BaseInfo`; the zero value
for non-pointers. -/
def Info.GetPointed (fi : Info) : Info :=
  if !fi.isPointer || fi.pointed.isNone then Info.zero
  else
    match fi.pointed with
    | some b => { toBaseInfo := b }
    | none => Info.zero

/-- `Info.GetTypeName` (field/field.go). The generic branch
(`IsGeneric && len(typeArgs) > 0`) can never fire because `typeArgs` is
always nil in this file, so it is not represented. The Go code dereferences
`fi.pointed` unconditionally in the pointer branch; the classifier always
sets `pointed` together with `IsPointer`, and the embedding uses `""` for
the unreachable nil case. -/
def Info.GetTypeName (fi : Info) : String :=
  if fi.isPointer then "*" ++ ((fi.pointed.map BaseInfo.typeName).getD "")
  else fi.typeName

/-- The raw shape of a Go type as seen by `processFieldType`
(field/field.go): the six `go/types` kinds the classifier dispatches on,
plus `other` for every remaining kind (chan, interface, signature, ...)
which falls into the `default` branch. `named` records the package path
(used by `types.Type.String()`), the package name (used by
`getOriginalTypeName`), the type's own name, its underlying type and its
type-argument list. `structK` and `other` carry the string that
`types.Type.String()` would print for them. -/
inductive GoType where
  | basic (name : String) (isString : Bool) (isNumeric : Bool)
  | slice (elem : GoType)
  | named (pkgPath : String) (pkgName : String) (name : String)
      (underlying : GoType) (typeArgs : List GoType)
  | structK (descr : String)
  | pointer (elem : GoType)
  | mapK (key : GoType) (value : GoType)
  | other (descr : String)

mutual

/-- Models `types.Type.String()` (go/types, external library) for the
shapes tracked here; `createBaseInfo` uses it for the raw `TypeName`.
Named types print their package *path*-qualified name. -/
def typeString : GoType → String
  | .basic n _ _ => n
  | .slice e => "[]" ++ typeString e
  | .named pkgPath _ nm _ args =>
      let base := if pkgPath == "" then nm else pkgPath ++ "." ++ nm
      match args with
      | [] => base
      | _ => base ++ "[" ++ goJoin ", " (typeStringList args) ++ "]"
  | .structK descr => descr
  | .pointer e => "*" ++ typeString e
  | .mapK k v => "map[" ++ typeString k ++ "]" ++ typeString v
  | .other descr => descr

/-- The printed forms of a list of type arguments (helper of `typeString`). -/
def typeStringList : List GoType → List String
  | [] => []
  | t :: ts => typeString t :: typeStringList ts

end

/-- Models `reflect.StructTag` by the only two lookups the code performs
(`tags.Get("sql")` and `tags.Get("gorm")` in `parseTagSetting`). -/
structure Tag where
  sql : String
  gorm : String
deriving DecidableEq, Repr

/-- `parseTagSetting` (field/field.go): split each of the sql/gorm tag
sources on `;`, each part on `:`; the key is the upper-cased, trimmed head;
the value is the rest re-joined with `:`, or the key itself for a bare
entry. Entries are collected in write order (Go assigns into a map, so a
later write to the same key wins — see `tagGet`). -/
def parseTagSetting (tags : Tag) : List (String × String) :=
  let processSource := fun (tagSource : String) =>
    if tagSource == "" then ([] : List (String × String))
    else
      (goSplit tagSource ';').foldl
        (fun acc tagPart =>
          if tagPart == "" then acc
          else
            let keyValue := goSplit tagPart ':'
            let key := goTrim (goToUpper (keyValue.headD ""))
            if keyValue.length ≥ 2 then
              acc ++ [(key, goJoin ":" keyValue.tail)]
            else acc ++ [(key, key)])
        []
  processSource tags.sql ++ processSource tags.gorm

/-- Go map lookup with overwrite-on-rewrite semantics: the *last* entry for
a key wins, and a missing key yields the zero value `""`. -/
def tagGet (setting : List (String × String)) (key : String) : String :=
  ((setting.reverse.find? (fun p => p.1 == key)).map Prod.snd).getD ""

/-- `field.InfoGenerator` (field/field.go). The `*types.Package` context is
modelled by its package path (`pkg`), which is what the pointer-equality
test in `getOriginalTypeName` distinguishes. -/
structure InfoGenerator where
  pkg : String
  timeTypes : List TimeTypePattern
deriving DecidableEq, Repr

/-- `NewInfoGenerator` (field/field.go): default time patterns. -/
def NewInfoGenerator (pkg : String) : InfoGenerator :=
  ⟨pkg, DefaultTimeTypes⟩

/-- `InfoGenerator.matchTimeType` (field/field.go): first pattern whose
`pattern` equals the type name exactly, else none. -/
def InfoGenerator.matchTimeType (g : InfoGenerator) (typeName : String) :
    Option TimeTypePattern :=
  g.timeTypes.find? (fun p => p.pattern == typeName)

/-- `InfoGenerator.getOriginalTypeName` (field/field.go): unqualified name
for a type of the generator's own package, else `pkgName.name`. -/
def getOriginalTypeName (g : InfoGenerator) (pkgPath pkgName name : String) :
    String :=
  if pkgPath == g.pkg then name else pkgName ++ "." ++ name

/-- The input to classification: models the package-private `field` struct
(field/field.go) implementing the `Field` interface — a name, a type and a
struct tag. -/
structure FieldArg where
  name : String
  typ : GoType
  tag : Tag

/-- `shouldSkipField` (field/field.go): skip iff the parsed tag settings
carry a `-` entry. -/
def shouldSkipTag (tag : Tag) : Bool :=
  tagGet (parseTagSetting tag) "-" != ""

/-- Models the external `gorm.io/gorm/schema.NamingStrategy.ColumnName`
snake-case conversion used by `createBaseInfo` (external library, not
repository code; no claim depends on its exact output). -/
def toSnakeCase (s : String) : String :=
  s.data.foldl
    (fun acc c =>
      if c.isUpper then
        (if acc == "" then acc else acc ++ "_") ++ String.mk [c.toLower]
      else acc ++ String.mk [c])
    ""

/-- `createBaseInfo` (field/field.go): snake-cased column name, overridden
by a nonempty `COLUMN` tag setting; type name from `types.Type.String()`. -/
def createBaseInfo (name : String) (tag : Tag) (typ : GoType) : BaseInfo :=
  let tagSetting := parseTagSetting tag
  let dbName0 := toSnakeCase name
  let dbName := if tagGet tagSetting "COLUMN" != "" then tagGet tagSetting "COLUMN" else dbName0
  { name := name, typeName := typeString typ, dbName := dbName }

/-- `createTimeFieldInfo` (field/field.go). -/
def createTimeFieldInfo (baseInfo : BaseInfo) (pattern : TimeTypePattern) : Info :=
  { toBaseInfo := { baseInfo with isTime := true, isNumeric := pattern.isNumeric } }

mutual

/-- `InfoGenerator.GenFieldInfo` (field/field.go) together with its helpers
`processFieldType`, `processBasicType`, `processSliceType`,
`processStructType`, `processMapType`, `processNamedType`,
`processPointerType` (which recurse through `GenFieldInfo`), flattened into
one structural recursion over the field's type. Returns `none` for the skip
signal: either the tag carries the `-` marker, or the type (or, recursively,
a pointee/underlying type) falls into `processFieldType`'s `default` branch. -/
def genFieldInfoAux (g : InfoGenerator) (name : String) (tag : Tag)
    (t : GoType) : Option Info :=
  if shouldSkipTag tag then none
  else
    let baseInfo := createBaseInfo name tag t
    match g.matchTimeType baseInfo.typeName with
    | some timePattern => some (createTimeFieldInfo baseInfo timePattern)
    | none =>
      match t with
      | .basic _ isStr isNum =>
          -- processBasicType
          some { toBaseInfo := { baseInfo with isString := isStr, isNumeric := isNum } }
      | .slice _ =>
          -- processSliceType
          some { toBaseInfo := { baseInfo with isSlice := true } }
      | .named pkgPath pkgName nm u args =>
          -- processNamedType: classify the underlying type, then overwrite
          -- the type name, re-check the time patterns against it, and
          -- handle type arguments.
          match genFieldInfoAux g name tag u with
          | none => none
          | some r0 =>
            let origName := getOriginalTypeName g pkgPath pkgName nm
            let r1 := { r0 with typeName := origName }
            let r2 :=
              match g.matchTimeType origName with
              | some timePattern =>
                  { r1 with isTime := true, isStruct := false,
                            isNumeric := timePattern.isNumeric }
              | none => r1
            if args.length > 0 then
              -- processGenericType
              some { r2 with
                       typeName := origName ++ "[" ++
                         goJoin ", " (genArgTypeNames g name tag args) ++ "]",
                       isGeneric := true }
            else some r2
      | .structK _ =>
          -- processStructType
          some { toBaseInfo := { baseInfo with isStruct := true } }
      | .pointer e =>
          -- processPointerType
          match genFieldInfoAux g name tag e with
          | none => none
          | some pointedField =>
              some { toBaseInfo :=
                       { name := baseInfo.name,
                         typeName := "*" ++ pointedField.typeName,
                         dbName := baseInfo.dbName },
                     pointed := some pointedField.toBaseInfo,
                     isPointer := true }
      | .mapK _ _ =>
          -- processMapType
          some { toBaseInfo := { baseInfo with isMap := true } }
      | .other _ =>
          -- processFieldType's default branch: "Unknown type - no filtering
          -- needed", returns nil.
          none

/-- `processGenericType`'s loop (field/field.go): classify each type
argument and collect the `TypeName` of those that classify successfully. -/
def genArgTypeNames (g : InfoGenerator) (name : String) (tag : Tag) :
    List GoType → List String
  | [] => []
  | a :: rest =>
      match genFieldInfoAux g name tag a with
      | some argInfo => argInfo.typeName :: genArgTypeNames g name tag rest
      | none => genArgTypeNames g name tag rest

end

/-- `GenFieldInfo` at the `Field`-interface level (field/field.go). -/
def GenFieldInfo (g : InfoGenerator) (f : FieldArg) : Option Info :=
  genFieldInfoAux g f.name f.tag f.typ

end FieldGen

namespace Conv

/-- `Converter.isBooleanType` (parser/converter.go): case-insensitive
substring match on "bool". -/
def isBooleanType (typeName : String) : Bool :=
  goContains (goToLower typeName) "bool"

/-- `Converter.convertFieldType` (parser/converter.go): priority-based
mapping from `field.Info` flags to `domain.FieldType`. -/
def convertFieldType (fi : FieldGen.Info) : Domain.FieldType :=
  if fi.isTime then .time
  else if fi.isSlice then .slice
  else if fi.isMap then .map
  else if fi.isStruct then .struct
  else if fi.isPointer then .pointer
  else if fi.isString then .string
  else if fi.isNumeric then .numeric
  else if isBooleanType fi.typeName then .bool
  else .unknown

/-- `Converter.convertField` (parser/converter.go). -/
def convertField (fi : FieldGen.Info) : Domain.Field :=
  { name := fi.name
    dbName := fi.dbName
    type := convertFieldType fi
    typeName := fi.typeName
    goType := fi.GetTypeName }

/-- `cleanCommentText` (parser/converter.go). -/
def cleanCommentText (comment : String) : String :=
  goTrim (goTrimTrail (goTrimLead (goTrimLead (goTrim comment) "//") "/*") "*/")

/-- The four marker strings recognised by `hasQueryBuilderAnnotation`
(parser/converter.go; renamed here to `hasQueryBuilderMarker`). -/
def queryBuilderMarkers : List String :=
  ["gen:querybuilder", "@querybuilder", "+querybuilder", "//go:generate querybuilder"]

/-- `Converter.hasQueryBuilderAnnotation` (parser/converter.go): the cleaned
comment text, lower-cased, contains one of the marker strings. -/
def hasQueryBuilderMarker (comment : String) : Bool :=
  let text := cleanCommentText comment
  if text == "" then false
  else
    let lowerText := goToLower text
    queryBuilderMarkers.any (fun a => goContains lowerText (goToLower a))

/-- `Converter.ShouldGenerateQueryBuilder` (parser/converter.go). The
`*ast.CommentGroup` doc is modelled as `none` (nil) or the list of raw
comment texts. -/
def ShouldGenerateQueryBuilder (doc : Option (List String)) : Bool :=
  match doc with
  | none => false
  | some comments => comments.any (fun c => hasQueryBuilderMarker (goTrim c))

/-- A parsed struct as handed to conversion (`parser.ParsedStruct`,
restricted to the data `ConvertStruct` and the generation loop read: the
type name, the doc comment group, and the raw fields). -/
structure ParsedStructM where
  typeName : String
  doc : Option (List String)
  fields : List FieldGen.FieldArg

/-- `Converter.ConvertStruct` (parser/converter.go): converts every field
whose `GenFieldInfo` is non-nil, preserving order; package name is set by
the caller. -/
def ConvertStruct (g : FieldGen.InfoGenerator) (s : ParsedStructM) : Domain.Struct :=
  { name := s.typeName
    packageName := ""
    fields := s.fields.foldl
      (fun acc f =>
        match FieldGen.GenFieldInfo g f with
        | some fieldInfo => acc ++ [convertField fieldInfo]
        | none => acc)
      [] }

end Conv

namespace Gen

/-- The `operatorNames` map built by `NewMethodFactory`
(generation/method_factory.go): the Go constant identifier of each
operator, used to render `repository.<name>` in method bodies. -/
def operatorName : Repo.Operator → String
  | .equal => "OperatorEqual"
  | .notEqual => "OperatorNotEqual"
  | .lessThan => "OperatorLessThan"
  | .lessThanOrEqual => "OperatorLessThanOrEqual"
  | .greaterThan => "OperatorGreaterThan"
  | .greaterThanOrEqual => "OperatorGreaterThanOrEqual"
  | .like => "OperatorLike"
  | .notLike => "OperatorNotLike"
  | .isNull => "OperatorIsNull"
  | .isNotNull => "OperatorIsNotNull"
  | .opIn => "OperatorIn"
  | .opNotIn => "OperatorNotIn"

/-- The `methodSuffixes` map built by `NewMethodFactory`
(generation/method_factory.go). -/
def methodSuffix : Repo.Operator → String
  | .equal => "Eq"
  | .notEqual => "Ne"
  | .lessThan => "Lt"
  | .lessThanOrEqual => "Lte"
  | .greaterThan => "Gt"
  | .greaterThanOrEqual => "Gte"
  | .like => "Like"
  | .notLike => "NotLike"
  | .isNull => "IsNull"
  | .isNotNull => "IsNotNull"
  | .opIn => "In"
  | .opNotIn => "NotIn"

/-- `MethodFactory.isUnaryOperator` (generation/method_factory.go). -/
def isUnaryOperator (op : Repo.Operator) : Bool :=
  op == .isNull || op == .isNotNull

/-- `MethodFactory.isVariadicOperator` (generation/method_factory.go). -/
def isVariadicOperator (op : Repo.Operator) : Bool :=
  op == .opIn || op == .opNotIn

/-- The Go keyword map in `fieldNameToParamName`
(generation/method_factory.go). -/
def goKeywords : List String :=
  ["break", "case", "chan", "const", "continue",
   "default", "defer", "else", "fallthrough", "for",
   "func", "go", "goto", "if", "import",
   "interface", "map", "package", "range", "return",
   "select", "struct", "switch", "type", "var"]

/-- Membership in the keyword map (`keywords[paramName]` in Go, which is
`false` for absent keys). -/
def isGoKeyword (s : String) : Bool :=
  goKeywords.contains s

/-- `MethodFactory.fieldNameToParamName` (generation/method_factory.go):
`"value"` for the empty name; otherwise the name with 32 added to the code
point of its first character (ASCII lower-casing: `runes[0] + ('a' - 'A')`),
with `"Value"` appended when the result is a Go keyword. -/
def fieldNameToParamName (fieldName : String) : String :=
  if fieldName.length == 0 then "value"
  else
    let paramName :=
      match fieldName.data with
      | [] => fieldName
      | c :: rest => String.mk (Char.ofNat (c.toNat + 32) :: rest)
    if isGoKeyword paramName then paramName ++ "Value" else paramName

/-- Go `strings.ToLower(string(s[0]))`, the receiver-name computation in the
method constructors. Every caller passes a string ending in a nonempty
literal ("...Filters", "...Updater", "...Options"), so the string is never
empty; the `""` branch is unreachable. -/
def firstCharLowerStr (s : String) : String :=
  match s.data with
  | [] => ""
  | c :: _ => goToLower (String.mk [c])

/-- `createBinaryFilterMethod` (generation/method_factory.go). -/
def createBinaryFilterMethod (methodName filterTypeName receiverName structName : String)
    (field : Domain.Field) (op : Repo.Operator) : Domain.Method :=
  let paramName := fieldNameToParamName field.name
  { name := methodName
    receiver := receiverName ++ " *" ++ filterTypeName
    parameters := paramName ++ " " ++ field.typeName
    returnType := "*" ++ filterTypeName
    body :=
      receiverName ++ ".filters[" ++ structName ++ "DBSchema." ++ field.name ++
      "] = append(" ++ receiverName ++ ".filters[" ++ structName ++ "DBSchema." ++
      field.name ++ "], \n\t&repository.Filter\x7b\n\t\tField:    string(" ++
      structName ++ "DBSchema." ++ field.name ++ "),\n\t\tOperator: repository." ++
      operatorName op ++ ",\n\t\tValue:    " ++ paramName ++ ",\n\t\x7d)\nreturn " ++
      receiverName
    documentation :=
      methodName ++ " filters by " ++ field.name ++ " " ++ goToLower (methodSuffix op) }

/-- `createVariadicFilterMethod` (generation/method_factory.go): the
parameter name is `fieldNameToParamName(field.Name) + "s"`, and the
parameter list uses the variadic `...` marker. -/
def createVariadicFilterMethod (methodName filterTypeName receiverName structName : String)
    (field : Domain.Field) (op : Repo.Operator) : Domain.Method :=
  let paramName := fieldNameToParamName field.name ++ "s"
  { name := methodName
    receiver := receiverName ++ " *" ++ filterTypeName
    parameters := paramName ++ " ..." ++ field.typeName
    returnType := "*" ++ filterTypeName
    body :=
      receiverName ++ ".filters[" ++ structName ++ "DBSchema." ++ field.name ++
      "] = append(" ++ receiverName ++ ".filters[" ++ structName ++ "DBSchema." ++
      field.name ++ "], \n\t&repository.Filter\x7b\n\t\tField:    string(" ++
      structName ++ "DBSchema." ++ field.name ++ "),\n\t\tOperator: repository." ++
      operatorName op ++ ",\n\t\tValue:    " ++ paramName ++ ",\n\t\x7d)\nreturn " ++
      receiverName
    documentation :=
      methodName ++ " filters by " ++ field.name ++ " in list" }

/-- `createUnaryFilterMethod` (generation/method_factory.go): no
parameters; the body's comparison value is the `nil` sentinel. -/
def createUnaryFilterMethod (methodName filterTypeName receiverName structName : String)
    (field : Domain.Field) (op : Repo.Operator) : Domain.Method :=
  { name := methodName
    receiver := receiverName ++ " *" ++ filterTypeName
    parameters := ""
    returnType := "*" ++ filterTypeName
    body :=
      receiverName ++ ".filters[" ++ structName ++ "DBSchema." ++ field.name ++
      "] = append(" ++ receiverName ++ ".filters[" ++ structName ++ "DBSchema." ++
      field.name ++ "], \n\t&repository.Filter\x7b\n\t\tField:    string(" ++
      structName ++ "DBSchema." ++ field.name ++ "),\n\t\tOperator: repository." ++
      operatorName op ++ ",\n\t\tValue:    nil,\n\t\x7d)\nreturn " ++
      receiverName
    documentation :=
      methodName ++ " filters by " ++ field.name ++ " is null check" }

/-- `MethodFactory.CreateFilterMethod` (generation/method_factory.go):
dispatches on the operator's call shape. -/
def CreateFilterMethod (structName : String) (field : Domain.Field)
    (op : Repo.Operator) : Domain.Method :=
  let methodName := field.name ++ methodSuffix op
  let filterTypeName := structName ++ "Filters"
  let receiverName := firstCharLowerStr filterTypeName
  if isUnaryOperator op then
    createUnaryFilterMethod methodName filterTypeName receiverName structName field op
  else if isVariadicOperator op then
    createVariadicFilterMethod methodName filterTypeName receiverName structName field op
  else
    createBinaryFilterMethod methodName filterTypeName receiverName structName field op

/-- `MethodFactory.CreateUpdaterMethod` (generation/method_factory.go). -/
def CreateUpdaterMethod (structName : String) (field : Domain.Field) : Domain.Method :=
  let methodName := "Set" ++ field.name
  let updaterTypeName := structName ++ "Updater"
  let receiverName := firstCharLowerStr updaterTypeName
  let paramName := fieldNameToParamName field.name
  { name := methodName
    receiver := receiverName ++ " *" ++ updaterTypeName
    parameters := paramName ++ " " ++ field.typeName
    returnType := "*" ++ updaterTypeName
    body :=
      receiverName ++ ".fields[string(" ++ structName ++ "DBSchema." ++ field.name ++
      ")] = " ++ paramName ++ "\nreturn " ++ receiverName
    documentation :=
      methodName ++ " sets the " ++ field.name ++ " field for update" }

/-- `MethodFactory.CreateOrderMethod` (generation/method_factory.go). -/
def CreateOrderMethod (structName : String) (field : Domain.Field)
    (ascending : Bool) : Domain.Method :=
  let direction := if ascending then "Asc" else "Desc"
  let directionLower := if ascending then "asc" else "desc"
  let methodName := "OrderBy" ++ field.name ++ direction
  let optionsTypeName := structName ++ "Options"
  let receiverName := firstCharLowerStr optionsTypeName
  { name := methodName
    receiver := receiverName ++ " *" ++ optionsTypeName
    parameters := ""
    returnType := "*" ++ optionsTypeName
    body :=
      receiverName ++ ".options = append(" ++ receiverName ++
      ".options, func(options *repository.Options) \x7b\n\toptions.SortFields = append(options.SortFields, &repository.SortField\x7b\n\t\tField:     string(" ++
      structName ++ "DBSchema." ++ field.name ++ "),\n\t\tDirection: \"" ++
      directionLower ++ "\",\n\t\x7d)\n\x7d)\nreturn " ++ receiverName
    documentation :=
      methodName ++ " orders results by " ++ field.name ++ " " ++ directionLower }

end Gen

namespace Templ

/-- The error the generation run fails with when no annotated structs are
found (`repository.ErrNoAnnotatedStructs`, repository/errors.go, wrapped by
`Generator.Generate`, templates/querybuilder.go). -/
inductive GenError where
  | noAnnotatedStructs
deriving DecidableEq, Repr

/-- The struct-collection loop of `Generator.Generate`
(templates/querybuilder.go, lines 611-626): keep only structs whose doc
comment carries a querybuilder annotation, apply the optional type-name
suffix, convert, and set the package name. -/
def collectDomainStructs (g : FieldGen.InfoGenerator) (packageName suffix : String)
    (parsedStructs : List Conv.ParsedStructM) : List Domain.Struct :=
  parsedStructs.foldl
    (fun acc parsedStruct =>
      if Conv.ShouldGenerateQueryBuilder parsedStruct.doc then
        let structWithSuffix :=
          if suffix != "" then { parsedStruct with typeName := parsedStruct.typeName ++ suffix }
          else parsedStruct
        let domainStruct := Conv.ConvertStruct g structWithSuffix
        acc ++ [{ domainStruct with packageName := packageName }]
      else acc)
    []

/-- The decision stage of `Generator.Generate` (templates/querybuilder.go,
lines 628-638) after parsing succeeded: with zero collected domain structs
the run fails with `ErrNoAnnotatedStructs` (no output is produced — file
rendering happens only in the `ok` branch). -/
def generateFromParsed (g : FieldGen.InfoGenerator) (packageName suffix : String)
    (parsedStructs : List Conv.ParsedStructM) : Except GenError (List Domain.Struct) :=
  let domainStructs := collectDomainStructs g packageName suffix parsedStructs
  if domainStructs.length == 0 then .error .noAnnotatedStructs
  else .ok domainStructs

end Templ

/-- When classification skips a field *without* the tag marker: the type
(or, through pointers and named types, a type it recursively resolves) is a
kind outside `processFieldType`'s handled set, and no time pattern rescues
it first. This characterizes `GenFieldInfo`'s `nil` results beyond the tag
check (see the `default` branch of `processFieldType`, field/field.go). -/
def FieldGen.unresolvable (g : FieldGen.InfoGenerator) : FieldGen.GoType → Bool
  | .other d =>
      (g.matchTimeType (FieldGen.typeString (.other d))).isNone
  | .pointer e =>
      (g.matchTimeType (FieldGen.typeString (.pointer e))).isNone &&
        FieldGen.unresolvable g e
  | .named pkgPath pkgName nm u args =>
      (g.matchTimeType (FieldGen.typeString (.named pkgPath pkgName nm u args))).isNone &&
        FieldGen.unresolvable g u
  | _ => false

/-- The operator table exactly as claim C5 states it, written from the
claim's words (not from the code) so the code's `SupportedOperators` can be
compared against it. Non-filterable categories are not covered by the claim
and are mapped to `[]` here; the comparison theorem only consults filterable
categories. -/
def specOperatorTable : Domain.FieldType → List Repo.Operator
  | .string => [.equal, .notEqual, .like, .notLike, .opIn, .opNotIn,
                .lessThan, .greaterThan, .lessThanOrEqual, .greaterThanOrEqual]
  | .numeric => [.equal, .notEqual, .lessThan, .greaterThan,
                 .lessThanOrEqual, .greaterThanOrEqual, .opIn, .opNotIn]
  | .time => [.equal, .notEqual, .lessThan, .greaterThan,
              .lessThanOrEqual, .greaterThanOrEqual, .opIn, .opNotIn]
  | .bool => [.equal, .notEqual]
  | .unknown => [.equal, .notEqual]
  | .pointer => [.equal, .notEqual, .isNull, .isNotNull]
  | _ => []

/-- The variadic parameter identifier as claim C3 prescribes it (written
from the claim's words, for refutation): lower-case the first character,
append the plural "s", and only then perform the reserved-keyword check. -/
def specVariadicParamNameClaim (fieldName : String) : String :=
  if fieldName.length == 0 then "value"
  else
    let lowered :=
      match fieldName.data with
      | [] => fieldName
      | c :: rest => String.mk (Char.ofNat (c.toNat + 32) :: rest)
    let plural := lowered ++ "s"
    if Gen.isGoKeyword plural then plural ++ "Value" else plural

/-
Helper lemmas (shared across claim theorems).
-/

/-- If `q ++ v = k` then `v`'s characters are a suffix of `k`'s. -/
theorem data_suffix_of_append_eq {q v k : String} (h : q ++ v = k) :
    v.data <:+ k.data :=
  ⟨q.data, by rw [← String.data_append, h]⟩

/-- No Go keyword ends in "Value". -/
theorem no_keyword_value_suffix : ∀ k ∈ Gen.goKeywords, ¬ ("Value".data <:+ k.data) := by
  decide

/-- No Go keyword ends in "s". -/
theorem no_keyword_s_suffix : ∀ k ∈ Gen.goKeywords, ¬ ("s".data <:+ k.data) := by
  decide

/-- Appending "Value" to any string never produces a Go keyword. -/
theorem isGoKeyword_append_value_eq_false (q : String) :
    Gen.isGoKeyword (q ++ "Value") = false := by
  cases hc : Gen.isGoKeyword (q ++ "Value") with
  | false => rfl
  | true =>
    exfalso
    have hmem : (q ++ "Value") ∈ Gen.goKeywords := List.mem_of_elem_eq_true hc
    exact no_keyword_value_suffix _ hmem (data_suffix_of_append_eq rfl)

/-- Appending "s" to any string never produces a Go keyword. -/
theorem isGoKeyword_append_s_eq_false (q : String) :
    Gen.isGoKeyword (q ++ "s") = false := by
  cases hc : Gen.isGoKeyword (q ++ "s") with
  | false => rfl
  | true =>
    exfalso
    have hmem : (q ++ "s") ∈ Gen.goKeywords := List.mem_of_elem_eq_true hc
    exact no_keyword_s_suffix _ hmem (data_suffix_of_append_eq rfl)

/-- `fieldNameToParamName` never returns a bare Go keyword. -/
theorem fieldNameToParamName_not_keyword (fieldName : String) :
    Gen.isGoKeyword (Gen.fieldNameToParamName fieldName) = false := by
  unfold Gen.fieldNameToParamName
  split
  · decide
  · dsimp only
    split
    · exact isGoKeyword_append_value_eq_false _
    · rename_i h
      simpa using h

/-
Claim theorems.
-/

/-- C5 (confirmed): for every filterable category, `SupportedOperators`
returns exactly the claim's fixed table in its stated order — String gets
the ten string operators, Numeric and Time the eight range operators,
Boolean and Unknown exactly Equal/NotEqual, and Pointer exactly
Equal, NotEqual, IsNull, IsNotNull regardless of the pointee. -/
theorem C5_operator_table (f : Domain.Field) (h : f.IsFilterable = true) :
    f.SupportedOperators = specOperatorTable f.type := by
  rcases f with ⟨n, d, ty, tn, gt⟩
  cases ty <;> first
    | rfl
    | simp [Domain.Field.IsFilterable] at h

/-- Witness for C5 at a concrete pointer field. -/
theorem C5_operator_table_witness :
    (Domain.Field.IsFilterable ⟨"ID", "id", .pointer, "*int64", "*int64"⟩ = true) ∧
    Domain.Field.SupportedOperators ⟨"ID", "id", .pointer, "*int64", "*int64"⟩ =
      specOperatorTable Domain.FieldType.pointer :=
  ⟨by decide, C5_operator_table ⟨"ID", "id", .pointer, "*int64", "*int64"⟩ (by decide)⟩

/-- C2 (counterexample): for a slice field — a category with
`isFilterable = false` — `SupportedOperators` returns the base list
`[Equal, NotEqual]`, not the empty list the claim states. -/
theorem C2_counterexample :
    Domain.Field.IsFilterable ⟨"Tags", "tags", .slice, "[]string", "[]string"⟩ = false ∧
    Domain.Field.SupportedOperators ⟨"Tags", "tags", .slice, "[]string", "[]string"⟩ =
      [.equal, .notEqual] ∧
    Domain.Field.SupportedOperators ⟨"Tags", "tags", .slice, "[]string", "[]string"⟩ ≠
      ([] : List Repo.Operator) := by
  refine ⟨by decide, by decide, by decide⟩

/-- C2 (amended): for every field whose category is Slice, Map or Aggregate
(struct) — exactly the categories with `isFilterable = false` — the
operator set returned by `SupportedOperators` is the `default`-branch base
list `[Equal, NotEqual]`, not the empty set. -/
theorem C2_nonfilterable_operators (f : Domain.Field) (h : f.IsFilterable = false) :
    f.SupportedOperators = [.equal, .notEqual] := by
  rcases f with ⟨n, d, ty, tn, gt⟩
  cases ty <;> first
    | rfl
    | simp [Domain.Field.IsFilterable] at h

/-- Witness for the amended C2 at a concrete slice field. -/
theorem C2_nonfilterable_operators_witness :
    (Domain.Field.IsFilterable ⟨"Tags2", "tags2", .map, "map[string]string", "map[string]string"⟩ = false) ∧
    Domain.Field.SupportedOperators ⟨"Tags2", "tags2", .map, "map[string]string", "map[string]string"⟩ =
      [.equal, .notEqual] :=
  ⟨by decide,
   C2_nonfilterable_operators
     ⟨"Tags2", "tags2", .map, "map[string]string", "map[string]string"⟩ (by decide)⟩

/-- C10 (confirmed): for the empty field name, parameter-identifier
derivation returns the literal identifier "value"; every synthesized method
kind goes through this same derivation (the variadic kind then appends its
plural "s" to it), so no kind fails or produces an empty identifier. The
conjuncts show the resulting parameter lists of all three filter call
shapes and the updater for an empty-named field. -/
theorem C10_empty_field_name :
    Gen.fieldNameToParamName "" = "value" ∧
    (Gen.CreateFilterMethod "Product" ⟨"", "", .string, "string", "string"⟩ .equal).parameters =
      "value string" ∧
    (Gen.CreateFilterMethod "Product" ⟨"", "", .string, "string", "string"⟩ .opIn).parameters =
      "values ...string" ∧
    (Gen.CreateUpdaterMethod "Product" ⟨"", "", .string, "string", "string"⟩).parameters =
      "value string" := by
  refine ⟨by decide, by decide, by decide, by decide⟩

/-- Strings concatenated around a nonempty middle are nonempty. -/
theorem append3_ne_empty (p m t : String) (hm : m.data ≠ []) :
    p ++ m ++ t ≠ "" := by
  intro h
  have hlen : (p ++ m ++ t).length = ("" : String).length := by rw [h]
  rw [String.length_append, String.length_append] at hlen
  have h0 : ("" : String).length = 0 := rfl
  have hpos : 0 < m.length := List.length_pos.mpr hm
  omega

/-- C8 (confirmed): the synthesized parameter identifier is never a bare
reserved Go keyword — not for the binary/updater identifier
(`fieldNameToParamName`), and not for the variadic identifier (that
identifier plus the plural "s", as `createVariadicFilterMethod` builds it);
in particular a field named `Type` yields `typeValue`, not `type`. -/
theorem C8_keyword_safety (fieldName : String) :
    Gen.isGoKeyword (Gen.fieldNameToParamName fieldName) = false ∧
    Gen.isGoKeyword (Gen.fieldNameToParamName fieldName ++ "s") = false ∧
    Gen.fieldNameToParamName "Type" = "typeValue" ∧
    (Gen.CreateFilterMethod "Product"
        ⟨"Type", "type", .string, "string", "string"⟩ .equal).parameters =
      "typeValue string" :=
  ⟨fieldNameToParamName_not_keyword fieldName,
   isGoKeyword_append_s_eq_false (Gen.fieldNameToParamName fieldName),
   by decide, by decide⟩

/-- C3 (counterexample): for the field name `Type` and the variadic
operator In, the code produces the parameter identifier `typeValues`
(keyword check on the singular, then plural "s"), while the claim's order
("s" appended before the keyword check) would produce `types`. -/
theorem C3_counterexample :
    (Gen.CreateFilterMethod "Product"
        ⟨"Type", "type", .string, "string", "string"⟩ .opIn).parameters =
      "typeValues ...string" ∧
    specVariadicParamNameClaim "Type" = "types" ∧
    ("typeValues" : String) ≠ "types" := by
  refine ⟨by decide, by decide, by decide⟩

/-- C3 (amended): the parameter identifier is the field name with its first
character ASCII-lower-cased, with "Value" appended when that (singular)
identifier is a reserved Go keyword; for the variadic operators In/NotIn
the plural "s" is appended AFTER that reserved-keyword check, to the
already-checked singular identifier. A field named `Type` therefore gets
the variadic identifier `typeValues`, not `types`. -/
theorem C3_plural_after_keyword_check (structName : String) (f : Domain.Field) :
    (Gen.CreateFilterMethod structName f .opIn).parameters =
      (Gen.fieldNameToParamName f.name ++ "s") ++ " ..." ++ f.typeName ∧
    (Gen.CreateFilterMethod structName f .opNotIn).parameters =
      (Gen.fieldNameToParamName f.name ++ "s") ++ " ..." ++ f.typeName ∧
    (Gen.CreateFilterMethod "Product"
        ⟨"Range", "range", .numeric, "int64", "int64"⟩ .opIn).parameters =
      "rangeValues ...int64" :=
  ⟨rfl, rfl, by decide⟩

/-- C7 (confirmed): the produced filter method's parameter list is empty
iff the operator is IsNull/IsNotNull (whose body uses the nil sentinel, as
shown by the concrete body conjunct), variadic (`...` of the field's
declared type) iff the operator is In/NotIn, and otherwise exactly one
parameter of the field's declared type. -/
theorem C7_call_shape_selection (s : String) (f : Domain.Field) (op : Repo.Operator) :
    ((Gen.CreateFilterMethod s f op).parameters =
       (if op = .isNull ∨ op = .isNotNull then ""
        else if op = .opIn ∨ op = .opNotIn then
          (Gen.fieldNameToParamName f.name ++ "s") ++ " ..." ++ f.typeName
        else Gen.fieldNameToParamName f.name ++ " " ++ f.typeName)) ∧
    ((Gen.CreateFilterMethod s f op).parameters = "" ↔
       (op = .isNull ∨ op = .isNotNull)) ∧
    (Gen.isUnaryOperator op = true ↔ (op = .isNull ∨ op = .isNotNull)) ∧
    (Gen.isVariadicOperator op = true ↔ (op = .opIn ∨ op = .opNotIn)) ∧
    (Gen.CreateFilterMethod "Product"
        ⟨"UpdatedAt", "updated_at", .pointer, "*time.Time", "*time.Time"⟩ .isNull).body =
      "p.filters[ProductDBSchema.UpdatedAt] = append(p.filters[ProductDBSchema.UpdatedAt], \n\t&repository.Filter\x7b\n\t\tField:    string(ProductDBSchema.UpdatedAt),\n\t\tOperator: repository.OperatorIsNull,\n\t\tValue:    nil,\n\t\x7d)\nreturn p" := by
  cases op with
  | isNull =>
      exact ⟨rfl, iff_of_true rfl (by decide), by decide, by decide, by decide⟩
  | isNotNull =>
      exact ⟨rfl, iff_of_true rfl (by decide), by decide, by decide, by decide⟩
  | opIn =>
      exact ⟨rfl,
        iff_of_false
          (append3_ne_empty (Gen.fieldNameToParamName f.name ++ "s") " ..." f.typeName
            (by decide)) (by decide),
        by decide, by decide, by decide⟩
  | opNotIn =>
      exact ⟨rfl,
        iff_of_false
          (append3_ne_empty (Gen.fieldNameToParamName f.name ++ "s") " ..." f.typeName
            (by decide)) (by decide),
        by decide, by decide, by decide⟩
  | equal =>
      exact ⟨rfl,
        iff_of_false
          (append3_ne_empty (Gen.fieldNameToParamName f.name) " " f.typeName (by decide))
          (by decide),
        by decide, by decide, by decide⟩
  | notEqual =>
      exact ⟨rfl,
        iff_of_false
          (append3_ne_empty (Gen.fieldNameToParamName f.name) " " f.typeName (by decide))
          (by decide),
        by decide, by decide, by decide⟩
  | lessThan =>
      exact ⟨rfl,
        iff_of_false
          (append3_ne_empty (Gen.fieldNameToParamName f.name) " " f.typeName (by decide))
          (by decide),
        by decide, by decide, by decide⟩
  | lessThanOrEqual =>
      exact ⟨rfl,
        iff_of_false
          (append3_ne_empty (Gen.fieldNameToParamName f.name) " " f.typeName (by decide))
          (by decide),
        by decide, by decide, by decide⟩
  | greaterThan =>
      exact ⟨rfl,
        iff_of_false
          (append3_ne_empty (Gen.fieldNameToParamName f.name) " " f.typeName (by decide))
          (by decide),
        by decide, by decide, by decide⟩
  | greaterThanOrEqual =>
      exact ⟨rfl,
        iff_of_false
          (append3_ne_empty (Gen.fieldNameToParamName f.name) " " f.typeName (by decide))
          (by decide),
        by decide, by decide, by decide⟩
  | like =>
      exact ⟨rfl,
        iff_of_false
          (append3_ne_empty (Gen.fieldNameToParamName f.name) " " f.typeName (by decide))
          (by decide),
        by decide, by decide, by decide⟩
  | notLike =>
      exact ⟨rfl,
        iff_of_false
          (append3_ne_empty (Gen.fieldNameToParamName f.name) " " f.typeName (by decide))
          (by decide),
        by decide, by decide, by decide⟩

/-- The collection fold of `Generator.Generate` leaves its accumulator
unchanged over structs none of which carry the annotation. -/
theorem collectDomainStructs_nil_of_none_annotated
    (g : FieldGen.InfoGenerator) (packageName suffix : String) :
    ∀ (parsedStructs : List Conv.ParsedStructM) (acc : List Domain.Struct),
      (∀ ps ∈ parsedStructs, Conv.ShouldGenerateQueryBuilder ps.doc = false) →
      parsedStructs.foldl
        (fun acc parsedStruct =>
          if Conv.ShouldGenerateQueryBuilder parsedStruct.doc then
            let structWithSuffix :=
              if suffix != "" then
                { parsedStruct with typeName := parsedStruct.typeName ++ suffix }
              else parsedStruct
            let domainStruct := Conv.ConvertStruct g structWithSuffix
            acc ++ [{ domainStruct with packageName := packageName }]
          else acc)
        acc = acc := by
  intro parsedStructs
  induction parsedStructs with
  | nil => intro acc _; rfl
  | cons ps rest ih =>
      intro acc h
      have hps : Conv.ShouldGenerateQueryBuilder ps.doc = false :=
        h ps (List.mem_cons_self ps rest)
      simp only [List.foldl_cons, hps, Bool.false_eq_true, if_false]
      exact ih acc (fun q hq => h q (List.mem_cons_of_mem ps hq))

/-- C9 (confirmed): a generation run whose parsed input yields zero
eligible structs after annotation filtering fails as a whole with the
`ErrNoAnnotatedStructs` condition and produces no generated output (the
error branch returns before any rendering). -/
theorem C9_no_annotated_structs_fails
    (g : FieldGen.InfoGenerator) (packageName suffix : String)
    (parsedStructs : List Conv.ParsedStructM)
    (h : ∀ ps ∈ parsedStructs, Conv.ShouldGenerateQueryBuilder ps.doc = false) :
    Templ.generateFromParsed g packageName suffix parsedStructs =
      .error .noAnnotatedStructs := by
  unfold Templ.generateFromParsed Templ.collectDomainStructs
  rw [collectDomainStructs_nil_of_none_annotated g packageName suffix parsedStructs [] h]
  rfl

/-- Witness for C9: one struct without any annotation and one with a nil
doc group yield the error. -/
theorem C9_no_annotated_structs_fails_witness :
    (∀ ps ∈ ([⟨"User", some ["// User is a model"], []⟩,
              ⟨"Audit", none, []⟩] : List Conv.ParsedStructM),
        Conv.ShouldGenerateQueryBuilder ps.doc = false) ∧
    Templ.generateFromParsed (FieldGen.NewInfoGenerator "models") "models" ""
        [⟨"User", some ["// User is a model"], []⟩, ⟨"Audit", none, []⟩] =
      .error .noAnnotatedStructs :=
  ⟨by decide,
   C9_no_annotated_structs_fails (FieldGen.NewInfoGenerator "models") "models" ""
     [⟨"User", some ["// User is a model"], []⟩, ⟨"Audit", none, []⟩]
     (by decide)⟩

/-- Characterization of the classifier's skip signal: `genFieldInfoAux`
returns `none` exactly when the tag carries the `-` marker or the type is
`unresolvable` (recursively reaches `processFieldType`'s `default` branch
with no time pattern rescuing it first). -/
theorem genFieldInfoAux_eq_none_iff (g : FieldGen.InfoGenerator) (name : String)
    (tag : FieldGen.Tag) :
    ∀ t : FieldGen.GoType,
      (FieldGen.genFieldInfoAux g name tag t = none ↔
        (FieldGen.shouldSkipTag tag = true ∨ FieldGen.unresolvable g t = true))
  | .basic n s m => by
      by_cases hskip : FieldGen.shouldSkipTag tag
      · simp [FieldGen.genFieldInfoAux, hskip]
      · cases hm : g.matchTimeType (FieldGen.typeString (.basic n s m)) <;>
          simp [FieldGen.genFieldInfoAux, FieldGen.createBaseInfo, hskip, hm,
                FieldGen.unresolvable]
  | .slice e => by
      by_cases hskip : FieldGen.shouldSkipTag tag
      · simp [FieldGen.genFieldInfoAux, hskip]
      · cases hm : g.matchTimeType (FieldGen.typeString (.slice e)) <;>
          simp [FieldGen.genFieldInfoAux, FieldGen.createBaseInfo, hskip, hm,
                FieldGen.unresolvable]
  | .structK d => by
      by_cases hskip : FieldGen.shouldSkipTag tag
      · simp [FieldGen.genFieldInfoAux, hskip]
      · cases hm : g.matchTimeType (FieldGen.typeString (.structK d)) <;>
          simp [FieldGen.genFieldInfoAux, FieldGen.createBaseInfo, hskip, hm,
                FieldGen.unresolvable]
  | .mapK k v => by
      by_cases hskip : FieldGen.shouldSkipTag tag
      · simp [FieldGen.genFieldInfoAux, hskip]
      · cases hm : g.matchTimeType (FieldGen.typeString (.mapK k v)) <;>
          simp [FieldGen.genFieldInfoAux, FieldGen.createBaseInfo, hskip, hm,
                FieldGen.unresolvable]
  | .other d => by
      by_cases hskip : FieldGen.shouldSkipTag tag
      · simp [FieldGen.genFieldInfoAux, hskip]
      · cases hm : g.matchTimeType (FieldGen.typeString (.other d)) <;>
          simp [FieldGen.genFieldInfoAux, FieldGen.createBaseInfo, hskip, hm,
                FieldGen.unresolvable]
  | .pointer e => by
      have ih := genFieldInfoAux_eq_none_iff g name tag e
      by_cases hskip : FieldGen.shouldSkipTag tag
      · simp [FieldGen.genFieldInfoAux, hskip]
      · cases hm : g.matchTimeType (FieldGen.typeString (.pointer e)) with
        | some pat =>
            simp [FieldGen.genFieldInfoAux, FieldGen.createBaseInfo, hskip, hm,
                  FieldGen.unresolvable]
        | none =>
            rw [FieldGen.unresolvable]
            cases hrec : FieldGen.genFieldInfoAux g name tag e with
            | none =>
                have hu : FieldGen.unresolvable g e = true := by
                  rcases ih.mp hrec with h | h
                  · exact absurd h (by simp [hskip])
                  · exact h
                simp [FieldGen.genFieldInfoAux, FieldGen.createBaseInfo, hskip, hm,
                      hrec, hu]
            | some pf =>
                have hu : FieldGen.unresolvable g e = false := by
                  cases hu : FieldGen.unresolvable g e with
                  | false => rfl
                  | true =>
                      have : FieldGen.genFieldInfoAux g name tag e = none :=
                        ih.mpr (Or.inr hu)
                      rw [hrec] at this
                      exact absurd this (by simp)
                simp [FieldGen.genFieldInfoAux, FieldGen.createBaseInfo, hskip, hm,
                      hrec, hu]
  | .named pkgPath pkgName nm u args => by
      have ih := genFieldInfoAux_eq_none_iff g name tag u
      by_cases hskip : FieldGen.shouldSkipTag tag
      · simp [FieldGen.genFieldInfoAux, hskip]
      · cases hm : g.matchTimeType (FieldGen.typeString (.named pkgPath pkgName nm u args)) with
        | some pat =>
            simp [FieldGen.genFieldInfoAux, FieldGen.createBaseInfo, hskip, hm,
                  FieldGen.unresolvable]
        | none =>
            rw [FieldGen.unresolvable]
            cases hrec : FieldGen.genFieldInfoAux g name tag u with
            | none =>
                have hu : FieldGen.unresolvable g u = true := by
                  rcases ih.mp hrec with h | h
                  · exact absurd h (by simp [hskip])
                  · exact h
                simp [FieldGen.genFieldInfoAux, FieldGen.createBaseInfo, hskip, hm,
                      hrec, hu]
            | some r0 =>
                have hu : FieldGen.unresolvable g u = false := by
                  cases hu : FieldGen.unresolvable g u with
                  | false => rfl
                  | true =>
                      have : FieldGen.genFieldInfoAux g name tag u = none :=
                        ih.mpr (Or.inr hu)
                      rw [hrec] at this
                      exact absurd this (by simp)
                simp only [FieldGen.genFieldInfoAux, FieldGen.createBaseInfo, hskip,
                           hm, hrec, hu, Bool.false_eq_true, if_false, Option.isNone_some,
                           Bool.false_and, or_false, false_or]
                split <;> simp [hskip]

/-- C1 (counterexample): a field of an unhandled type kind (here a channel
type, `processFieldType`'s `default` branch) is skipped by `GenFieldInfo`
(returns nil) even though its tag carries no exclusion marker — refuting
"returns skip iff the metadata carries the exclusion marker" and the
fallback-to-Unknown totality for shape kinds outside the handled set. -/
theorem C1_counterexample :
    FieldGen.GenFieldInfo (FieldGen.NewInfoGenerator "models")
        ⟨"Done", .other "chan int", ⟨"", ""⟩⟩ = none ∧
    FieldGen.shouldSkipTag ⟨"", ""⟩ = false := by
  refine ⟨by decide, by decide⟩

/-- C1 (amended): classification returns the skip signal iff the field's
tag carries the exclusion marker OR the field's type is unresolvable —
i.e. it (or, through pointer/named recursion, a type it resolves to) is a
shape kind outside primitive/pointer/slice/map/named/struct and no time
pattern matches its display name first. For every other shape,
classification returns a populated `Info` (never fails). -/
theorem C1_skip_characterization (g : FieldGen.InfoGenerator) (f : FieldGen.FieldArg) :
    FieldGen.GenFieldInfo g f = none ↔
      (FieldGen.shouldSkipTag f.tag = true ∨ FieldGen.unresolvable g f.typ = true) :=
  genFieldInfoAux_eq_none_iff g f.name f.tag f.typ

/-- C4 (counterexample): for a `**int` field, classification sets
`isPointer = true` and resolves one level, but the category derived from
the recorded pointee information (`GetPointed` + `convertFieldType`) is
Unknown, not Pointer — the recorded `BaseInfo` has no pointer flag, so the
inner pointer-ness survives only in the display name `*int`. -/
theorem C4_counterexample :
    (FieldGen.GenFieldInfo (FieldGen.NewInfoGenerator "models")
        ⟨"V", .pointer (.pointer (.basic "int" false true)), ⟨"", ""⟩⟩).map
      (fun i => Conv.convertFieldType i.GetPointed) =
      some Domain.FieldType.unknown ∧
    Domain.FieldType.unknown ≠ Domain.FieldType.pointer := by
  refine ⟨by decide, by decide⟩

/-- C4 (amended): for every pointer-to-pointer field (shape `**T`) that
classifies (and whose display names match no time pattern), exactly one
level of indirection is resolved: `isPointer = true`, the recorded pointee
is the one-level-dereferenced shape (display name `*` + the pointee
classification's name, kept un-unwrapped in the field's own `**` display
name), but the recorded pointee `BaseInfo` carries no type flags, so the
category derived from it is never Pointer (it falls to the Boolean name
heuristic or Unknown). -/
theorem C4_pointer_to_pointer (g : FieldGen.InfoGenerator) (name : String)
    (tag : FieldGen.Tag) (t : FieldGen.GoType) (i : FieldGen.Info)
    (h1 : FieldGen.genFieldInfoAux g name tag (.pointer (.pointer t)) = some i)
    (h2 : g.matchTimeType (FieldGen.typeString (.pointer (.pointer t))) = none)
    (h3 : g.matchTimeType (FieldGen.typeString (.pointer t)) = none) :
    i.isPointer = true ∧
    ∃ b : FieldGen.BaseInfo, i.pointed = some b ∧
      i.typeName = "*" ++ b.typeName ∧
      (∃ pf : FieldGen.Info, FieldGen.genFieldInfoAux g name tag t = some pf ∧
        b.typeName = "*" ++ pf.typeName) ∧
      b.isStruct = false ∧ b.isNumeric = false ∧ b.isTime = false ∧
      b.isString = false ∧ b.isSlice = false ∧ b.isMap = false ∧
      Conv.convertFieldType i.GetPointed ≠ Domain.FieldType.pointer := by
  by_cases hskip : FieldGen.shouldSkipTag tag
  · simp [FieldGen.genFieldInfoAux, hskip] at h1
  · cases hpf : FieldGen.genFieldInfoAux g name tag t with
    | none =>
        simp [FieldGen.genFieldInfoAux, FieldGen.createBaseInfo, hskip, h2, h3, hpf] at h1
    | some pf =>
        simp only [FieldGen.genFieldInfoAux, FieldGen.createBaseInfo, hskip, h2, h3, hpf,
                   Bool.false_eq_true, if_false, Option.some.injEq] at h1
        subst h1
        refine ⟨rfl, ⟨_, rfl, rfl, ⟨pf, rfl, rfl⟩, rfl, rfl, rfl, rfl, rfl, rfl, ?_⟩⟩
        by_cases hb : Conv.isBooleanType ("*" ++ pf.typeName) <;>
          simp [FieldGen.Info.GetPointed, Conv.convertFieldType, hb]

/-- Witness for the amended C4 at a concrete `**int` field. -/
theorem C4_pointer_to_pointer_witness :
    (FieldGen.genFieldInfoAux (FieldGen.NewInfoGenerator "models") "V" ⟨"", ""⟩
        (.pointer (.pointer (.basic "int" false true))) =
      some { name := "V", dbName := "v", typeName := "**int",
             pointed := some { name := "V", dbName := "v", typeName := "*int" },
             isPointer := true }) ∧
    ((FieldGen.NewInfoGenerator "models").matchTimeType
        (FieldGen.typeString (.pointer (.pointer (.basic "int" false true)))) = none) ∧
    ((FieldGen.NewInfoGenerator "models").matchTimeType
        (FieldGen.typeString (.pointer (.basic "int" false true))) = none) ∧
    (({ name := "V", dbName := "v", typeName := "**int",
        pointed := some { name := "V", dbName := "v", typeName := "*int" },
        isPointer := true } : FieldGen.Info).isPointer = true ∧
      ∃ b : FieldGen.BaseInfo,
        ({ name := "V", dbName := "v", typeName := "**int",
           pointed := some { name := "V", dbName := "v", typeName := "*int" },
           isPointer := true } : FieldGen.Info).pointed = some b ∧
        ({ name := "V", dbName := "v", typeName := "**int",
           pointed := some { name := "V", dbName := "v", typeName := "*int" },
           isPointer := true } : FieldGen.Info).typeName = "*" ++ b.typeName ∧
        (∃ pf : FieldGen.Info,
          FieldGen.genFieldInfoAux (FieldGen.NewInfoGenerator "models") "V" ⟨"", ""⟩
              (.basic "int" false true) = some pf ∧
          b.typeName = "*" ++ pf.typeName) ∧
        b.isStruct = false ∧ b.isNumeric = false ∧ b.isTime = false ∧
        b.isString = false ∧ b.isSlice = false ∧ b.isMap = false ∧
        Conv.convertFieldType
            ({ name := "V", dbName := "v", typeName := "**int",
               pointed := some { name := "V", dbName := "v", typeName := "*int" },
               isPointer := true } : FieldGen.Info).GetPointed ≠
          Domain.FieldType.pointer) :=
  ⟨by decide, by decide, by decide,
   C4_pointer_to_pointer (FieldGen.NewInfoGenerator "models") "V" ⟨"", ""⟩
     (.basic "int" false true) _ (by decide) (by decide) (by decide)⟩

/-- C6 (confirmed): for every named type whose qualified display name
matches a time pattern, classification first classifies the underlying
shape (hypothesis `hu`), then overwrites the display type name with the
named type's qualified name (flattening type arguments if present), then
overrides the category to Time and clears any struct flag the underlying
recursion set — so a named record-shaped type matching a time pattern is
classified Time, not Aggregate. -/
theorem C6_named_time_override (g : FieldGen.InfoGenerator) (name : String)
    (tag : FieldGen.Tag) (pkgPath pkgName nm : String) (u : FieldGen.GoType)
    (args : List FieldGen.GoType) (r0 : FieldGen.Info) (pat : FieldGen.TimeTypePattern)
    (hu : FieldGen.genFieldInfoAux g name tag u = some r0)
    (hm : g.matchTimeType (FieldGen.typeString (.named pkgPath pkgName nm u args)) = none)
    (hpat : g.matchTimeType (FieldGen.getOriginalTypeName g pkgPath pkgName nm) = some pat) :
    ∃ r : FieldGen.Info,
      FieldGen.genFieldInfoAux g name tag (.named pkgPath pkgName nm u args) = some r ∧
      r.isTime = true ∧ r.isStruct = false ∧ r.isNumeric = pat.isNumeric ∧
      r.typeName =
        (if args.length > 0 then
          FieldGen.getOriginalTypeName g pkgPath pkgName nm ++ "[" ++
            goJoin ", " (FieldGen.genArgTypeNames g name tag args) ++ "]"
         else FieldGen.getOriginalTypeName g pkgPath pkgName nm) ∧
      Conv.convertFieldType r = Domain.FieldType.time := by
  by_cases hskip : FieldGen.shouldSkipTag tag
  · simp [FieldGen.genFieldInfoAux, hskip] at hu
  · cases args with
    | nil =>
        have hgen :
            FieldGen.genFieldInfoAux g name tag (.named pkgPath pkgName nm u []) =
              some { r0 with
                     typeName := FieldGen.getOriginalTypeName g pkgPath pkgName nm,
                     isTime := true, isStruct := false, isNumeric := pat.isNumeric } := by
          simp [FieldGen.genFieldInfoAux, FieldGen.createBaseInfo, hskip, hm, hu, hpat]
        exact ⟨_, hgen, rfl, rfl, rfl, by simp, by simp [Conv.convertFieldType]⟩
    | cons a rest =>
        have hgen :
            FieldGen.genFieldInfoAux g name tag (.named pkgPath pkgName nm u (a :: rest)) =
              some { r0 with
                     typeName := FieldGen.getOriginalTypeName g pkgPath pkgName nm ++ "[" ++
                       goJoin ", " (FieldGen.genArgTypeNames g name tag (a :: rest)) ++ "]",
                     isTime := true, isStruct := false, isNumeric := pat.isNumeric,
                     isGeneric := true } := by
          simp [FieldGen.genFieldInfoAux, FieldGen.createBaseInfo, hskip, hm, hu, hpat]
        exact ⟨_, hgen, rfl, rfl, rfl, by simp, by simp [Conv.convertFieldType]⟩

/-- Witness for C6: a field of named type `database/sql.NullTime` (with a
record-shaped underlying type) classifies as Time with the struct flag
cleared. -/
theorem C6_named_time_override_witness :
    (FieldGen.genFieldInfoAux (FieldGen.NewInfoGenerator "models") "DeletedAt" ⟨"", ""⟩
        (.structK "struct\x7bTime time.Time; Valid bool\x7d") =
      some { name := "DeletedAt", dbName := "deleted_at",
             typeName := "struct\x7bTime time.Time; Valid bool\x7d", isStruct := true }) ∧
    ((FieldGen.NewInfoGenerator "models").matchTimeType
        (FieldGen.typeString
          (.named "database/sql" "sql" "NullTime"
            (.structK "struct\x7bTime time.Time; Valid bool\x7d") [])) = none) ∧
    ((FieldGen.NewInfoGenerator "models").matchTimeType
        (FieldGen.getOriginalTypeName (FieldGen.NewInfoGenerator "models")
          "database/sql" "sql" "NullTime") = some ⟨"sql.NullTime", true⟩) ∧
    (∃ r : FieldGen.Info,
      FieldGen.genFieldInfoAux (FieldGen.NewInfoGenerator "models") "DeletedAt" ⟨"", ""⟩
          (.named "database/sql" "sql" "NullTime"
            (.structK "struct\x7bTime time.Time; Valid bool\x7d") []) = some r ∧
      r.isTime = true ∧ r.isStruct = false ∧
      r.isNumeric = (⟨"sql.NullTime", true⟩ : FieldGen.TimeTypePattern).isNumeric ∧
      r.typeName =
        (if ([] : List FieldGen.GoType).length > 0 then
          FieldGen.getOriginalTypeName (FieldGen.NewInfoGenerator "models")
              "database/sql" "sql" "NullTime" ++ "[" ++
            goJoin ", " (FieldGen.genArgTypeNames (FieldGen.NewInfoGenerator "models")
              "DeletedAt" ⟨"", ""⟩ []) ++ "]"
         else FieldGen.getOriginalTypeName (FieldGen.NewInfoGenerator "models")
            "database/sql" "sql" "NullTime") ∧
      Conv.convertFieldType r = Domain.FieldType.time) :=
  ⟨by decide, by decide, by decide,
   C6_named_time_override (FieldGen.NewInfoGenerator "models") "DeletedAt" ⟨"", ""⟩
     "database/sql" "sql" "NullTime"
     (.structK "struct\x7bTime time.Time; Valid bool\x7d") []
     { name := "DeletedAt", dbName := "deleted_at",
       typeName := "struct\x7bTime time.Time; Valid bool\x7d", isStruct := true }
     ⟨"sql.NullTime", true⟩
     (by decide) (by decide) (by decide)⟩
